import Mathlib

/-!
Shallow embedding of the core of the tell command-line tool (Go): the LLM
response parser (internal/llm/client.go), the history store backed by a
single SQLite table (internal/storage/history.go, internal/storage/db.go),
and the generation orchestrator (the prompt subcommand in cmd/tell/main.go).

Conventions of the embedding:
- Go strings are modelled as List Char.  The byte indices produced by
  strings.Index and strings.LastIndex are modelled as character indices;
  both functions are only applied to the ASCII characters of an opening or
  closing curly bracket, so the slice taken between them has the same
  contents in both models.
- SQL statements are modelled by their SQLite semantics on an in-memory
  table: a list of rows plus the next AUTOINCREMENT id.  The timestamp
  column (DATETIME DEFAULT CURRENT_TIMESTAMP) is modelled by an explicit
  clock argument passed to the insert.
- The CREATE TABLE block in db.go omits the parent_id column although every
  statement in history.go reads and writes it; the specification fixes
  parent_id as part of the canonical schema (sections 6 and 9), so the model
  uses the canonical schema with parent_id present.
- Database connectivity failures are outside the pure model; the only
  failures modelled are the ones the Go code produces itself (sql.ErrNoRows,
  rows-affected checks, and the empty-search-query guard).
-/

/-- Decidable equality of results, used to evaluate the model on concrete
inputs. -/
instance {ε α : Type} [DecidableEq ε] [DecidableEq α] : DecidableEq (Except ε α)
  | .error x, .error y =>
    if h : x = y then .isTrue (by rw [h]) else .isFalse (fun hh => h (Except.error.inj hh))
  | .ok x, .ok y =>
    if h : x = y then .isTrue (by rw [h]) else .isFalse (fun hh => h (Except.ok.inj hh))
  | .error _, .ok _ => .isFalse Except.noConfusion
  | .ok _, .error _ => .isFalse Except.noConfusion

/-! ## Characters and Go string helpers -/

/-- ASCII lower-casing, as used by the SQLite LIKE operator, which is
case-insensitive for the 26 ASCII upper-case letters only. -/
def asciiLower (c : Char) : Char :=
  if 'A' ≤ c ∧ c ≤ 'Z' then Char.ofNat (c.toNat + 32) else c

/-- Index of the first occurrence of a character, as in strings.Index
(none models the Go return value -1). -/
def firstIdx (c : Char) : List Char → Option Nat
  | [] => none
  | x :: xs => if x = c then some 0 else (firstIdx c xs).map (· + 1)

/-- Index of the last occurrence of a character, as in strings.LastIndex
(none models the Go return value -1). -/
def lastIdx (c : Char) : List Char → Option Nat
  | [] => none
  | x :: xs =>
    match lastIdx c xs with
    | some i => some (i + 1)
    | none => if x = c then some 0 else none

/-- Replacement performed by SearchHistory on the search query:
strings.Replace(query, percent, backslash-percent, -1). -/
def escapePercent : List Char → List Char
  | [] => []
  | c :: r => if c = '%' then '\\' :: '%' :: escapePercent r else c :: escapePercent r

/-! ## SQLite LIKE

The queries in history.go use LIKE with no ESCAPE clause, so a backslash in
the pattern is an ordinary character.  A percent sign matches any sequence
of characters, an underscore matches any single character, and every other
character matches ASCII-case-insensitively.  The matcher is written as
structural recursion on the subject string (likeGo) with an inner structural
recursion on the pattern (stepMatch) so that it evaluates inside the kernel;
the equations proved below recover the usual textbook recursion. -/

/-- Does the pattern match the empty string: true exactly when the pattern
is a possibly empty run of percent wildcards. -/
def emptyMatch : List Char → Bool
  | [] => true
  | p :: ps => if p = '%' then emptyMatch ps else false

/-- One step of LIKE matching against a subject starting with character c,
where rest decides the match of any pattern against the subject tail. -/
def stepMatch (c : Char) (rest : List Char → Bool) : List Char → Bool
  | [] => false
  | p :: ps =>
    if p = '%' then stepMatch c rest ps || rest ('%' :: ps)
    else if p = '_' then rest ps
    else (asciiLower p == asciiLower c) && rest ps

/-- LIKE matching with the subject as the recursion argument. -/
def likeGo : List Char → List Char → Bool
  | [], p => emptyMatch p
  | c :: s2, p => stepMatch c (likeGo s2) p

/-- SQLite LIKE: does pattern p match subject s. -/
def likeMatch (p s : List Char) : Bool := likeGo s p

/-- The pattern built by GetHistoryEntries for a search term: a percent
wildcard on each side of the term. -/
def likePattern (term : List Char) : List Char := '%' :: term ++ ['%']

/-! ## Substring containment (the vocabulary of the specification)

The specification speaks of one string containing another as a substring.
These definitions formalise that vocabulary; they are deliberately written
from the words of the specification, to be compared against the LIKE
behaviour of the code. -/

/-- Case-sensitive: t matches the start of s character by character. -/
def startsWithCS : List Char → List Char → Bool
  | [], _ => true
  | _ :: _, [] => false
  | p :: ps, c :: cs => (p == c) && startsWithCS ps cs

/-- Case-sensitive substring containment. -/
def substrCS (t : List Char) : List Char → Bool
  | [] => startsWithCS t []
  | c :: s2 => startsWithCS t (c :: s2) || substrCS t s2

/-- ASCII-case-insensitive match at the start of s. -/
def startsWithCI : List Char → List Char → Bool
  | [], _ => true
  | _ :: _, [] => false
  | p :: ps, c :: cs => (asciiLower p == asciiLower c) && startsWithCI ps cs

/-- ASCII-case-insensitive substring containment. -/
def substrCI (t : List Char) : List Char → Bool
  | [] => startsWithCI t []
  | c :: s2 => startsWithCI t (c :: s2) || substrCI t s2

/-! ## Data model (internal/model) -/

/-- CommandResponse from internal/model: the structured reply decoded from
the LLM output.  The JSON field names are command, details and
show_details. -/
structure CommandResponse where
  command : String
  details : String
  show_details : Bool
deriving DecidableEq

/-- LLMUsage from internal/model: provenance and token usage metadata. -/
structure LLMUsage where
  model : String
  inputTokens : Int
  outputTokens : Int
deriving DecidableEq

/-- HistoryEntry from internal/model: one row of the command_history table.
parent_id models the sql.NullInt64 column as an optional integer. -/
structure HistoryEntry where
  id : Int
  timestamp : Nat
  prompt : String
  command : String
  details : String
  show_details : Bool
  error_message : String
  model : String
  input_tokens : Int
  output_tokens : Int
  favorite : Bool
  parent_id : Option Int
deriving DecidableEq

/-- The command_history table: its rows in insertion (rowid) order together
with the next AUTOINCREMENT id. -/
structure Table where
  rows : List HistoryEntry
  nextId : Int
deriving DecidableEq

/-- The SQLite AUTOINCREMENT invariant: every existing row has an id
strictly below the next id to be assigned. -/
def TableWF (t : Table) : Prop := ∀ r ∈ t.rows, r.id < t.nextId

/-! ## The history store (internal/storage/history.go) -/

/-- Ordering used by ORDER BY timestamp DESC. -/
def tsGE (a b : HistoryEntry) : Prop := b.timestamp ≤ a.timestamp

instance : DecidableRel tsGE := fun a b => inferInstanceAs (Decidable (b.timestamp ≤ a.timestamp))

instance : IsTotal HistoryEntry tsGE := ⟨fun a b => Nat.le_total b.timestamp a.timestamp⟩

instance : IsTrans HistoryEntry tsGE := ⟨fun _ _ _ h1 h2 => Nat.le_trans h2 h1⟩

/-- ORDER BY timestamp DESC: a sort of the selected rows that is
non-increasing in the timestamp column. -/
def orderByTimestampDesc (l : List HistoryEntry) : List HistoryEntry :=
  l.insertionSort tsGE

/-- SQLite LIMIT: a negative limit means no limit, otherwise the first
limit rows are kept. -/
def applyLimit (limit : Int) (l : List HistoryEntry) : List HistoryEntry :=
  if limit < 0 then l else l.take limit.toNat

/-- SQLite LIMIT with OFFSET: a negative offset is treated as zero. -/
def applyLimitOffset (limit offset : Int) (l : List HistoryEntry) : List HistoryEntry :=
  applyLimit limit (l.drop offset.toNat)

/-- AddHistoryEntry: insert one row.  A nil response stores empty command
and details and false show_details; a nil usage stores an empty model name
and zero token counts; favorite takes its schema default false; id and
timestamp are store-assigned (the clock argument models
CURRENT_TIMESTAMP).  Returns the new id and the updated table. -/
def addHistoryEntry (prompt : String) (response : Option CommandResponse)
    (usage : Option LLMUsage) (errorMsg : String) (parentID : Option Int)
    (now : Nat) (t : Table) : Int × Table :=
  let command := match response with | some r => r.command | none => ""
  let details := match response with | some r => r.details | none => ""
  let showDetails := match response with | some r => r.show_details | none => false
  let modelName := match usage with | some u => u.model | none => ""
  let inputTokens := match usage with | some u => u.inputTokens | none => 0
  let outputTokens := match usage with | some u => u.outputTokens | none => 0
  let row : HistoryEntry :=
    { id := t.nextId
      timestamp := now
      prompt := prompt
      command := command
      details := details
      show_details := showDetails
      error_message := errorMsg
      model := modelName
      input_tokens := inputTokens
      output_tokens := outputTokens
      favorite := false
      parent_id := parentID }
  (t.nextId, { rows := t.rows ++ [row], nextId := t.nextId + 1 })

/-- The WHERE clause built by GetHistoryEntries: 1=1, AND favorite = 1 when
onlyFavorites, AND prompt LIKE pattern OR command LIKE pattern when the
search term is non-empty (pattern is the term between percent signs,
unescaped). -/
def listMatches (onlyFavorites : Bool) (searchTerm : String) (r : HistoryEntry) : Bool :=
  (if onlyFavorites then r.favorite else true) &&
    (if searchTerm = "" then true
     else
       likeMatch (likePattern searchTerm.toList) r.prompt.toList ||
         likeMatch (likePattern searchTerm.toList) r.command.toList)

/-- GetHistoryEntries: SELECT with the optional filters, ORDER BY timestamp
DESC, LIMIT and OFFSET.  An empty result is an empty list, not an error. -/
def getHistoryEntries (limit offset : Int) (onlyFavorites : Bool)
    (searchTerm : String) (t : Table) : List HistoryEntry :=
  applyLimitOffset limit offset
    (orderByTimestampDesc (t.rows.filter (listMatches onlyFavorites searchTerm)))

/-- GetHistoryEntry: SELECT by primary key; sql.ErrNoRows becomes the
no-history-entry-found error. -/
def getHistoryEntry (id : Int) (t : Table) : Except String HistoryEntry :=
  match t.rows.find? (fun r => r.id == id) with
  | some e => .ok e
  | none => .error ("no history entry found with ID " ++ toString id)

/-- The error_message IS NULL test of GetMostRecentSuccessfulCommand.  The
store always binds error_message to a Go string, never to NULL, so the test
is false on every row the store can contain. -/
def errorMessageIsNull (_ : HistoryEntry) : Bool := false

/-- The WHERE clause of GetMostRecentSuccessfulCommand exactly as written:
command is non-empty AND error_message IS NULL, OR error_message is empty.
SQL gives AND a higher precedence than OR, so the clause groups as
(command non-empty AND error_message IS NULL) OR (error_message empty). -/
def mostRecentSuccessfulWhere (r : HistoryEntry) : Bool :=
  (!(r.command == "") && errorMessageIsNull r) || r.error_message == ""

/-- GetMostRecentSuccessfulCommand: the WHERE clause above, ORDER BY
timestamp DESC, LIMIT 1; sql.ErrNoRows becomes the
no-previous-successful-commands error. -/
def getMostRecentSuccessfulCommand (t : Table) : Except String HistoryEntry :=
  match (orderByTimestampDesc (t.rows.filter mostRecentSuccessfulWhere)).head? with
  | some e => .ok e
  | none => .error "no previous successful commands found"

/-- DeleteHistoryEntry: DELETE by primary key, then an error if the
rows-affected count is zero. -/
def deleteHistoryEntry (id : Int) (t : Table) : Except String Table :=
  if t.rows.any (fun r => r.id == id) then
    .ok { t with rows := t.rows.filter (fun r => !(r.id == id)) }
  else
    .error ("no history entry found with ID " ++ toString id)

/-- SearchHistory: an empty query is rejected before any SQL runs; otherwise
the percent signs of the query are backslash-escaped, the pattern is the
escaped query between percent signs, and the statement is a SELECT with
prompt LIKE pattern OR command LIKE pattern, ORDER BY timestamp DESC,
LIMIT.  Note the statement carries no ESCAPE clause. -/
def searchHistory (query : String) (limit : Int) (t : Table) :
    Except String (List HistoryEntry) :=
  if query = "" then .error "search query cannot be empty"
  else
    let pat := '%' :: escapePercent query.toList ++ ['%']
    .ok (applyLimit limit
      (orderByTimestampDesc
        (t.rows.filter (fun r => likeMatch pat r.prompt.toList || likeMatch pat r.command.toList))))

/-! ## JSON (the subset of encoding/json behaviour the client exercises)

parseAndValidateResponse calls json.Unmarshal on the brace-delimited span
and decodes it into the CommandResponse struct.  The model below parses the
span into a JSON syntax tree with the grammar of RFC 8259 as enforced by the
Go scanner (strict number syntax, no trailing data, no unescaped control
characters in strings, lenient lone-surrogate handling in unicode escapes)
and then decodes the tree with the Go object-into-struct semantics: keys are
matched against the field tags exactly or ASCII-case-insensitively, later
duplicate keys win, unknown keys are ignored, a null value leaves a field
untouched, and a value of the wrong type makes the whole Unmarshal return an
error.  Go additionally folds a few non-ASCII code points onto ASCII letters
when matching keys; that refinement is not modelled. -/

/-- JSON syntax tree.  Number values never reach a CommandResponse field
with a matching type, so their numeric value is not recorded. -/
inductive Json where
  | null
  | bool (b : Bool)
  | num
  | str (s : List Char)
  | arr (elems : List Json)
  | obj (members : List (List Char × Json))

/-- JSON insignificant whitespace. -/
def skipWS : List Char → List Char
  | [] => []
  | c :: r => if c = ' ' ∨ c = '\t' ∨ c = '\n' ∨ c = '\r' then skipWS r else c :: r

/-- Value of one hexadecimal digit. -/
def hexVal (c : Char) : Option Nat :=
  if '0' ≤ c ∧ c ≤ '9' then some (c.toNat - '0'.toNat)
  else if 'a' ≤ c ∧ c ≤ 'f' then some (c.toNat - 'a'.toNat + 10)
  else if 'A' ≤ c ∧ c ≤ 'F' then some (c.toNat - 'A'.toNat + 10)
  else none

/-- Value of a four-digit hexadecimal escape. -/
def hex4 (a b c d : Char) : Option Nat :=
  match hexVal a, hexVal b, hexVal c, hexVal d with
  | some x, some y, some z, some w => some (((x * 16 + y) * 16 + z) * 16 + w)
  | _, _, _, _ => none

/-- ASCII digit test. -/
def isDigitChar (c : Char) : Bool := '0' ≤ c && c ≤ '9'

/-- Split a leading run of ASCII digits. -/
def splitDigits (s : List Char) : List Char × List Char := s.span isDigitChar

/-- Optional exponent part of a JSON number, returning the rest. -/
def parseExpPart (s : List Char) : Option (List Char) :=
  match s with
  | 'e' :: r | 'E' :: r =>
    let r2 := match r with | '+' :: r3 => r3 | '-' :: r3 => r3 | _ => r
    match splitDigits r2 with
    | ([], _) => none
    | (_, r4) => some r4
  | _ => some s

/-- Optional fraction part of a JSON number followed by the optional
exponent, returning the rest. -/
def parseFracPart (s : List Char) : Option (List Char) :=
  match s with
  | '.' :: r =>
    match splitDigits r with
    | ([], _) => none
    | (_, r2) => parseExpPart r2
  | _ => parseExpPart s

/-- JSON number: optional minus, an integer part without leading zeros,
then optional fraction and exponent. -/
def parseNumber (s : List Char) : Option (Json × List Char) :=
  let s1 := match s with | '-' :: r => r | _ => s
  match s1 with
  | '0' :: r => (parseFracPart r).map (fun rest => (Json.num, rest))
  | c :: r =>
    if isDigitChar c then
      (parseFracPart (splitDigits r).2).map (fun rest => (Json.num, rest))
    else none
  | [] => none

mutual

/-- One JSON value starting at the head of the input (whitespace already
skipped), returning the value and the rest of the input.  The fuel only
bounds recursion; callers supply one more unit than the input length, which
is sufficient because every recursive call first consumes input. -/
def parseValue : Nat → List Char → Option (Json × List Char)
  | 0, _ => none
  | fuel + 1, s =>
    match s with
    | '{' :: r =>
      match skipWS r with
      | '}' :: r2 => some (Json.obj [], r2)
      | r2 => parseMembers fuel r2 []
    | '[' :: r =>
      match skipWS r with
      | ']' :: r2 => some (Json.arr [], r2)
      | r2 => parseElems fuel r2 []
    | '"' :: r => (parseStringRest fuel [] r).map (fun p => (Json.str p.1, p.2))
    | 't' :: 'r' :: 'u' :: 'e' :: r => some (Json.bool true, r)
    | 'f' :: 'a' :: 'l' :: 's' :: 'e' :: r => some (Json.bool false, r)
    | 'n' :: 'u' :: 'l' :: 'l' :: r => some (Json.null, r)
    | _ => parseNumber s

/-- Members of an object after the opening brace and leading whitespace,
when the object is not empty. -/
def parseMembers : Nat → List Char → List (List Char × Json) →
    Option (Json × List Char)
  | 0, _, _ => none
  | fuel + 1, s, acc =>
    match s with
    | '"' :: r =>
      match parseStringRest fuel [] r with
      | none => none
      | some (key, r1) =>
        match skipWS r1 with
        | ':' :: r2 =>
          match parseValue fuel (skipWS r2) with
          | none => none
          | some (v, r3) =>
            match skipWS r3 with
            | ',' :: r4 => parseMembers fuel (skipWS r4) (acc ++ [(key, v)])
            | '}' :: r4 => some (Json.obj (acc ++ [(key, v)]), r4)
            | _ => none
        | _ => none
    | _ => none

/-- Elements of an array after the opening bracket and leading whitespace,
when the array is not empty. -/
def parseElems : Nat → List Char → List Json → Option (Json × List Char)
  | 0, _, _ => none
  | fuel + 1, s, acc =>
    match parseValue fuel s with
    | none => none
    | some (v, r) =>
      match skipWS r with
      | ',' :: r2 => parseElems fuel (skipWS r2) (acc ++ [v])
      | ']' :: r2 => some (Json.arr (acc ++ [v]), r2)
      | _ => none

/-- Body of a string literal after the opening quote, accumulating decoded
characters in reverse.  Unescaped control characters are rejected, as in the
Go scanner. -/
def parseStringRest : Nat → List Char → List Char →
    Option (List Char × List Char)
  | 0, _, _ => none
  | fuel + 1, acc, s =>
    match s with
    | [] => none
    | '"' :: r => some (acc.reverse, r)
    | '\\' :: r => parseEscape fuel acc r
    | c :: r => if c.toNat < 32 then none else parseStringRest fuel (c :: acc) r

/-- Escape sequence after a backslash.  Unicode escapes follow the Go
decoder: a high surrogate combines with an immediately following low
surrogate escape, and any unpaired surrogate becomes the replacement
character. -/
def parseEscape : Nat → List Char → List Char → Option (List Char × List Char)
  | 0, _, _ => none
  | fuel + 1, acc, s =>
    match s with
    | '"' :: r => parseStringRest fuel ('"' :: acc) r
    | '\\' :: r => parseStringRest fuel ('\\' :: acc) r
    | '/' :: r => parseStringRest fuel ('/' :: acc) r
    | 'b' :: r => parseStringRest fuel (Char.ofNat 8 :: acc) r
    | 'f' :: r => parseStringRest fuel (Char.ofNat 12 :: acc) r
    | 'n' :: r => parseStringRest fuel ('\n' :: acc) r
    | 'r' :: r => parseStringRest fuel (Char.ofNat 13 :: acc) r
    | 't' :: r => parseStringRest fuel ('\t' :: acc) r
    | 'u' :: a :: b :: c :: d :: r =>
      match hex4 a b c d with
      | none => none
      | some n =>
        if 0xD800 ≤ n ∧ n < 0xDC00 then
          match r with
          | '\\' :: 'u' :: a2 :: b2 :: c2 :: d2 :: r2 =>
            match hex4 a2 b2 c2 d2 with
            | some m =>
              if 0xDC00 ≤ m ∧ m < 0xE000 then
                parseStringRest fuel
                  (Char.ofNat (0x10000 + (n - 0xD800) * 0x400 + (m - 0xDC00)) :: acc) r2
              else parseStringRest fuel (Char.ofNat 0xFFFD :: acc) r
            | none => parseStringRest fuel (Char.ofNat 0xFFFD :: acc) r
          | _ => parseStringRest fuel (Char.ofNat 0xFFFD :: acc) r
        else if 0xDC00 ≤ n ∧ n < 0xE000 then
          parseStringRest fuel (Char.ofNat 0xFFFD :: acc) r
        else parseStringRest fuel (Char.ofNat n :: acc) r
    | _ => none

end

/-- ASCII-case-insensitive equality of two character lists, the fallback Go
uses to match a JSON key against a field tag. -/
def eqAsciiCI : List Char → List Char → Bool
  | [], [] => true
  | x :: xs, y :: ys => (asciiLower x == asciiLower y) && eqAsciiCI xs ys
  | _, _ => false

/-- Does a JSON key select the struct field with the given tag: exact match
or ASCII-case-insensitive match. -/
def keyMatches (tag : String) (key : List Char) : Bool :=
  key == tag.toList || eqAsciiCI key tag.toList

/-- Processing of one object member during Unmarshal into CommandResponse:
the state is the struct decoded so far plus the sticky error flag. -/
def applyMember (st : CommandResponse × Bool) (m : List Char × Json) :
    CommandResponse × Bool :=
  if keyMatches "command" m.1 then
    match m.2 with
    | .str cs => ({ st.1 with command := cs.asString }, st.2)
    | .null => st
    | _ => (st.1, true)
  else if keyMatches "details" m.1 then
    match m.2 with
    | .str cs => ({ st.1 with details := cs.asString }, st.2)
    | .null => st
    | _ => (st.1, true)
  else if keyMatches "show_details" m.1 then
    match m.2 with
    | .bool b => ({ st.1 with show_details := b }, st.2)
    | .null => st
    | _ => (st.1, true)
  else st

/-- Unmarshal of a parsed JSON value into CommandResponse: the top value
must be an object, members are processed in order, and any wrongly typed
value for a matched field makes the whole decode fail. -/
def decodeCR : Json → Except Unit CommandResponse
  | .obj ms =>
    let st := ms.foldl applyMember ({ command := "", details := "", show_details := false }, false)
    if st.2 then .error () else .ok st.1
  | _ => .error ()

/-- json.Unmarshal of a byte slice into CommandResponse: parse exactly one
value surrounded by optional whitespace, then decode it. -/
def jsonUnmarshalCR (s : List Char) : Except Unit CommandResponse :=
  match parseValue (s.length + 1) (skipWS s) with
  | none => .error ()
  | some (v, rest) => if skipWS rest = [] then decodeCR v else .error ()

/-! ## The response parser (internal/llm/client.go) -/

/-- The brace-delimited span the parser extracts: from the first opening
curly bracket to the last closing one, inclusive.  Returns the empty list
when the span test of the code fails. -/
def braceSpan (responseText : List Char) : List Char :=
  match firstIdx '{' responseText, lastIdx '}' responseText with
  | some startIdx, some endIdx =>
    if endIdx ≤ startIdx then []
    else (responseText.drop startIdx).take (endIdx + 1 - startIdx)
  | _, _ => []

/-- Existence of a span: some opening curly bracket occurs strictly before
some closing one.  This is the wording of the specification for when the
brace scan succeeds. -/
def HasBracePair (t : List Char) : Prop :=
  ∃ i j : Nat, i < j ∧ t[i]? = some '{' ∧ t[j]? = some '}'

/-- parseAndValidateResponse: locate the span from the first opening curly
bracket to the last closing one, Unmarshal it, and reject an empty decoded
command.  The none cases of the two index lookups model the Go comparisons
with -1. -/
def parseAndValidateResponse (responseText : List Char) :
    Except String CommandResponse :=
  match firstIdx '{' responseText, lastIdx '}' responseText with
  | some startIdx, some endIdx =>
    if endIdx ≤ startIdx then .error "could not find valid JSON in response"
    else
      let jsonStr := (responseText.drop startIdx).take (endIdx + 1 - startIdx)
      match jsonUnmarshalCR jsonStr with
      | .error _ => .error "error unmarshaling JSON"
      | .ok response =>
        if response.command = "" then .error "command is empty in response"
        else .ok response
  | _, _ => .error "could not find valid JSON in response"

/-! ## The LLM client and the generation orchestrator

GenerateCommand and GenerateCommandContinuation issue the network call, turn
the usage block of the API message into an LLMUsage, concatenate the text
content blocks, and run parseAndValidateResponse.  The network call is an
external collaborator; it is modelled as an input of type
Except String ApiMessage.  The prompt subcommand (promptCmd.Run in
cmd/tell/main.go) then logs the attempt to history when the database handle
is available and surfaces any generation error afterwards; its observable
actions are modelled as an ordered event list. -/

/-- Usage block of the Anthropic API message. -/
structure ApiUsage where
  inputTokens : Int
  outputTokens : Int
deriving DecidableEq

/-- One content block of the API message; only text blocks contribute to
the parsed response text. -/
inductive ContentBlock where
  | text (s : List Char)
  | other
deriving DecidableEq

/-- The API message the client receives on success. -/
structure ApiMessage where
  content : List ContentBlock
  usage : ApiUsage
deriving DecidableEq

/-- Concatenation of the text content blocks, as in the extraction loop of
GenerateCommand. -/
def concatTextBlocks (content : List ContentBlock) : List Char :=
  content.foldl (fun acc b => match b with | .text s => acc ++ s | .other => acc) []

/-- The LLMUsage value built by GenerateCommand and
GenerateCommandContinuation from the usage block of the API message:
InputTokens is set from message.Usage.OutputTokens and OutputTokens from
message.Usage.InputTokens. -/
def usageFromMessage (modelName : String) (u : ApiUsage) : LLMUsage :=
  { model := modelName, inputTokens := u.outputTokens, outputTokens := u.inputTokens }

/-- GenerateCommand as a function of the API call outcome, returning the Go
triple (response, usage, error): an API failure returns no usage, a parse
failure returns the usage alongside the error, success returns response and
usage. -/
def generateCommand (modelName : String) (api : Except String ApiMessage) :
    Option CommandResponse × Option LLMUsage × Option String :=
  match api with
  | .error e => (none, none, some ("error generating command: " ++ e))
  | .ok msg =>
    let usage := usageFromMessage modelName msg.usage
    match parseAndValidateResponse (concatTextBlocks msg.content) with
    | .error e => (none, some usage, some ("error parsing response: " ++ e))
    | .ok r => (some r, some usage, none)

/-- GenerateCommandContinuation: the replayed conversation differs but the
handling of the API outcome is the same code, duplicated in the source. -/
def generateCommandContinuation (modelName : String) (api : Except String ApiMessage) :
    Option CommandResponse × Option LLMUsage × Option String :=
  match api with
  | .error e => (none, none, some ("error generating command continuation: " ++ e))
  | .ok msg =>
    let usage := usageFromMessage modelName msg.usage
    match parseAndValidateResponse (concatTextBlocks msg.content) with
    | .error e => (none, some usage, some ("error parsing response: " ++ e))
    | .ok r => (some r, some usage, none)

/-- Arguments of one AddHistoryEntry call. -/
structure AddCall where
  prompt : String
  response : Option CommandResponse
  usage : Option LLMUsage
  errorMsg : String
  parentID : Option Int
deriving DecidableEq

/-- Observable actions of the prompt subcommand after the generation call,
in program order. -/
inductive RunEvent where
  | addHistory (call : AddCall) (writeFailed : Bool)
  | surfaceError (msg : String)
  | display (r : CommandResponse)
deriving DecidableEq

/-- The tail of promptCmd.Run after the generation call, as the ordered
list of its observable actions: when the database handle is available the
attempt is logged with the error text of the generation failure if any (a
failing write is only logged to stderr, modelled by the writeFailed flag on
the event); afterwards a generation failure is surfaced, otherwise the
response is displayed. -/
def promptRun (prompt : String) (dbAvailable : Bool) (parentID : Option Int)
    (gen : Option CommandResponse × Option LLMUsage × Option String)
    (addHistoryFails : Bool) : List RunEvent :=
  let response := gen.1
  let usage := gen.2.1
  let genErr := gen.2.2
  let errorMsg := match genErr with | some e => e | none => ""
  let logEvents :=
    if dbAvailable then
      [RunEvent.addHistory
        { prompt := prompt, response := response, usage := usage,
          errorMsg := errorMsg, parentID := parentID } addHistoryFails]
    else []
  match genErr with
  | some e => logEvents ++ [RunEvent.surfaceError e]
  | none =>
    logEvents ++ (match response with | some r => [RunEvent.display r] | none => [])

/-- Errors surfaced by a run. -/
def surfacedErrors (events : List RunEvent) : List String :=
  events.filterMap (fun ev => match ev with | .surfaceError m => some m | _ => none)

/-! ## Lemmas: the index helpers -/

theorem firstIdx_found {c : Char} {s : List Char} {i : Nat} (h : firstIdx c s = some i) :
    s[i]? = some c ∧ ∀ k : Nat, s[k]? = some c → i ≤ k := by
  induction s generalizing i with
  | nil => simp [firstIdx] at h
  | cons x xs ih =>
    by_cases hx : x = c
    · simp only [firstIdx, if_pos hx, Option.some.injEq] at h
      subst h
      exact ⟨by simp [hx], fun k _ => Nat.zero_le k⟩
    · simp only [firstIdx, if_neg hx, Option.map_eq_some'] at h
      obtain ⟨j, hj, hij⟩ := h
      subst hij
      obtain ⟨hget, hmin⟩ := ih hj
      refine ⟨by simpa using hget, fun k hk => ?_⟩
      cases k with
      | zero => simp at hk; exact absurd hk hx
      | succ k2 => simpa using Nat.succ_le_succ (hmin k2 (by simpa using hk))

theorem firstIdx_none {c : Char} {s : List Char} (h : firstIdx c s = none) :
    ∀ k : Nat, s[k]? ≠ some c := by
  induction s with
  | nil => intro k; simp
  | cons x xs ih =>
    by_cases hx : x = c
    · simp [firstIdx, hx] at h
    · simp only [firstIdx, if_neg hx, Option.map_eq_none'] at h
      intro k
      cases k with
      | zero => simpa using hx
      | succ k2 => simpa using ih h k2

theorem lastIdx_none {c : Char} {s : List Char} (h : lastIdx c s = none) :
    ∀ k : Nat, s[k]? ≠ some c := by
  induction s with
  | nil => intro k; simp
  | cons x xs ih =>
    unfold lastIdx at h
    cases hxs : lastIdx c xs with
    | some j => rw [hxs] at h; exact absurd h (by simp)
    | none =>
      rw [hxs] at h
      by_cases hx : x = c
      · rw [if_pos hx] at h; exact absurd h (by simp)
      · intro k
        cases k with
        | zero => simpa using hx
        | succ k2 => simpa using ih hxs k2

theorem lastIdx_found {c : Char} {s : List Char} {i : Nat} (h : lastIdx c s = some i) :
    s[i]? = some c ∧ ∀ k : Nat, s[k]? = some c → k ≤ i := by
  induction s generalizing i with
  | nil => simp [lastIdx] at h
  | cons x xs ih =>
    unfold lastIdx at h
    cases hxs : lastIdx c xs with
    | some j =>
      rw [hxs] at h
      obtain rfl : j + 1 = i := by simpa using h
      obtain ⟨hget, hmax⟩ := ih hxs
      refine ⟨by simpa using hget, fun k hk => ?_⟩
      cases k with
      | zero => exact Nat.zero_le _
      | succ k2 => simpa using Nat.succ_le_succ (hmax k2 (by simpa using hk))
    | none =>
      rw [hxs] at h
      by_cases hx : x = c
      · rw [if_pos hx] at h
        obtain rfl : 0 = i := by simpa using h
        refine ⟨by simpa using hx, fun k hk => ?_⟩
        cases k with
        | zero => exact Nat.le_refl 0
        | succ k2 => exact absurd (by simpa using hk) (lastIdx_none hxs k2)
      · rw [if_neg hx] at h; exact absurd h (by simp)

theorem lastIdx_of_not_mem {c : Char} {s : List Char} (h : c ∉ s) : lastIdx c s = none := by
  induction s with
  | nil => rfl
  | cons x xs ih =>
    unfold lastIdx
    rw [ih (fun hm => h (List.mem_cons_of_mem x hm))]
    rw [if_neg (fun he : x = c => h (he ▸ List.mem_cons_self x xs))]

theorem firstIdx_concat {c : Char} {pre j suf : List Char}
    (hpre : c ∉ pre) (hj : j.head? = some c) :
    firstIdx c (pre ++ j ++ suf) = some pre.length := by
  induction pre with
  | nil =>
    cases j with
    | nil => simp at hj
    | cons a js =>
      obtain rfl : a = c := by simpa using hj
      simp [firstIdx]
  | cons x xs ih =>
    have hx : x ≠ c := fun he => hpre (he ▸ List.mem_cons_self x xs)
    have ih2 := ih (fun hm => hpre (List.mem_cons_of_mem x hm))
    show firstIdx c (((x :: xs) ++ j) ++ suf) = some (x :: xs).length
    have hshape : ((x :: xs) ++ j) ++ suf = x :: ((xs ++ j) ++ suf) := by simp
    rw [hshape]
    simp only [firstIdx, if_neg hx]
    rw [ih2]
    simp

theorem lastIdx_concat {c : Char} {pre j suf : List Char}
    (hsuf : c ∉ suf) (hj : j.getLast? = some c) :
    lastIdx c (pre ++ j ++ suf) = some (pre.length + (j.length - 1)) := by
  induction pre with
  | nil =>
    simp only [List.nil_append, List.length_nil, Nat.zero_add]
    induction j with
    | nil => simp at hj
    | cons a js ihj =>
      cases js with
      | nil =>
        obtain rfl : a = c := by simpa using hj
        show lastIdx a ([a] ++ suf) = some ([a].length - 1)
        have hshape : [a] ++ suf = a :: suf := by simp
        rw [hshape]
        unfold lastIdx
        rw [lastIdx_of_not_mem hsuf, if_pos rfl]
        rfl
      | cons b bs =>
        have hj2 : (b :: bs).getLast? = some c := by
          rw [← List.getLast?_cons_cons]; exact hj
        have ihr := ihj hj2
        show lastIdx c ((a :: b :: bs) ++ suf) = some ((a :: b :: bs).length - 1)
        have hshape : (a :: b :: bs) ++ suf = a :: ((b :: bs) ++ suf) := by simp
        rw [hshape]
        unfold lastIdx
        rw [ihr]
        simp only [List.length_cons, Option.some.injEq]
        omega
  | cons x xs ih =>
    show lastIdx c (((x :: xs) ++ j) ++ suf) = some ((x :: xs).length + (j.length - 1))
    have hshape : ((x :: xs) ++ j) ++ suf = x :: ((xs ++ j) ++ suf) := by simp
    rw [hshape]
    unfold lastIdx
    rw [ih]
    simp only [List.length_cons, Option.some.injEq]
    omega

theorem two_le_length_span {j : List Char} (h1 : j.head? = some '{') (h2 : j.getLast? = some '}') :
    2 ≤ j.length := by
  cases j with
  | nil => simp at h1
  | cons a js =>
    cases js with
    | nil =>
      have ha1 : a = '{' := by simpa using h1
      have ha2 : a = '}' := by simpa using h2
      rw [ha1] at ha2
      exact absurd ha2 (by decide)
    | cons b bs =>
      simp only [List.length_cons]
      omega

/-! ## Lemmas: LIKE matching versus substring containment -/

theorem likeGo_cons (c : Char) (s2 p : List Char) :
    likeGo (c :: s2) p = stepMatch c (likeGo s2) p := rfl

theorem likeMatch_trailing_pct (s : List Char) : likeMatch ['%'] s = true := by
  induction s with
  | nil => rfl
  | cons c s2 ih =>
    unfold likeMatch at ih ⊢
    rw [likeGo_cons]
    simp [stepMatch, ih]

theorem likeMatch_concat_pct {t : List Char} (hw : ∀ c ∈ t, c ≠ '%' ∧ c ≠ '_') (s : List Char) :
    likeMatch (t ++ ['%']) s = startsWithCI t s := by
  induction t generalizing s with
  | nil => simp [startsWithCI, likeMatch_trailing_pct]
  | cons p ps ih =>
    have hp := hw p (List.mem_cons_self p ps)
    cases s with
    | nil =>
      show likeGo [] ((p :: ps) ++ ['%']) = startsWithCI (p :: ps) []
      simp [likeGo, emptyMatch, hp.1, startsWithCI]
    | cons c s2 =>
      show likeGo (c :: s2) ((p :: ps) ++ ['%']) = startsWithCI (p :: ps) (c :: s2)
      rw [List.cons_append, likeGo_cons]
      simp only [stepMatch, if_neg hp.1, if_neg hp.2]
      have h2 := ih (fun c2 hc2 => hw c2 (List.mem_cons_of_mem p hc2)) s2
      unfold likeMatch at h2
      rw [h2]
      simp [startsWithCI]

theorem likeMatch_likePattern {t : List Char} (hw : ∀ c ∈ t, c ≠ '%' ∧ c ≠ '_') (s : List Char) :
    likeMatch (likePattern t) s = substrCI t s := by
  have hpat : likePattern t = '%' :: (t ++ ['%']) := by
    unfold likePattern
    rw [List.cons_append]
  rw [hpat]
  induction s with
  | nil =>
    unfold likeMatch
    cases t with
    | nil => rfl
    | cons p ps =>
      have hp := hw p (List.mem_cons_self p ps)
      show likeGo [] ('%' :: ((p :: ps) ++ ['%'])) = substrCI (p :: ps) []
      simp [likeGo, emptyMatch, hp.1, substrCI, startsWithCI]
  | cons c s2 ih =>
    unfold likeMatch at ih ⊢
    rw [likeGo_cons]
    simp only [stepMatch, if_true]
    rw [← likeGo_cons c s2 (t ++ ['%'])]
    have h1 := likeMatch_concat_pct hw (c :: s2)
    unfold likeMatch at h1
    rw [h1, ih]
    simp [substrCI]

/-! ## Lemmas: miscellaneous helpers -/

theorem escapePercent_id {l : List Char} (h : '%' ∉ l) : escapePercent l = l := by
  induction l with
  | nil => rfl
  | cons x xs ih =>
    have hx : x ≠ '%' := fun he => h (he ▸ List.mem_cons_self x xs)
    have ih2 := ih (fun hm => h (List.mem_cons_of_mem x hm))
    simp [escapePercent, hx, ih2]

theorem find?_append_of_none {α : Type} (p : α → Bool) {a : List α} (b : List α)
    (h : ∀ x ∈ a, ¬p x = true) : (a ++ b).find? p = b.find? p := by
  induction a with
  | nil => rfl
  | cons x xs ih =>
    rw [List.cons_append, List.find?_cons_of_neg _ (h x (List.mem_cons_self x xs))]
    exact ih (fun y hy => h y (List.mem_cons_of_mem x hy))

/-- Unfolding of the insert: AddHistoryEntry appends exactly one row built
from its arguments, with the store-assigned id and timestamp. -/
theorem addHistoryEntry_rows (p : String) (resp : Option CommandResponse)
    (usage : Option LLMUsage) (errMsg : String) (pid : Option Int) (now : Nat) (t : Table) :
    (addHistoryEntry p resp usage errMsg pid now t).2.rows =
      t.rows ++
        [{ id := t.nextId, timestamp := now, prompt := p,
           command := match resp with | some r => r.command | none => "",
           details := match resp with | some r => r.details | none => "",
           show_details := match resp with | some r => r.show_details | none => false,
           error_message := errMsg,
           model := match usage with | some u => u.model | none => "",
           input_tokens := match usage with | some u => u.inputTokens | none => 0,
           output_tokens := match usage with | some u => u.outputTokens | none => 0,
           favorite := false, parent_id := pid }] := rfl

/-! ## Claim C1 -/

/-- C1: the claim states that GetMostRecentSuccessfulCommand returns the
latest entry with a non-empty command and an empty error_message, failing
with NotFound when no entry satisfies both, and in particular never returns
an entry with an empty command.  SQL groups the WHERE clause as
(command non-empty AND error_message IS NULL) OR (error_message empty), and
error_message is never NULL, so the command condition is dead: on a table
whose only row has an empty command and an empty error_message the function
returns that row instead of failing. -/
theorem c1_empty_command_returned :
    getMostRecentSuccessfulCommand
        { rows := [{ id := 1, timestamp := 10, prompt := "list files", command := "",
                     details := "", show_details := false, error_message := "", model := "",
                     input_tokens := 0, output_tokens := 0, favorite := false,
                     parent_id := none }], nextId := 2 } =
      .ok { id := 1, timestamp := 10, prompt := "list files", command := "",
            details := "", show_details := false, error_message := "", model := "",
            input_tokens := 0, output_tokens := 0, favorite := false,
            parent_id := none } ∧
    ({ id := 1, timestamp := 10, prompt := "list files", command := "",
       details := "", show_details := false, error_message := "", model := "",
       input_tokens := 0, output_tokens := 0, favorite := false,
       parent_id := none } : HistoryEntry).command = "" :=
  ⟨rfl, rfl⟩

/-! ## Claim C9 -/

/-- C9 counterexample: AddHistoryEntry performs no validation of the
prompt.  Inserting with the empty prompt succeeds (the NOT NULL constraint
only excludes NULL, and a Go string is never NULL), so the store can
contain an entry whose prompt is the empty string. -/
theorem c9_counterexample :
    ((addHistoryEntry "" none none "" none 0 { rows := [], nextId := 1 }).2.rows.any
      (fun r => r.prompt == "")) = true := by decide

/-- C9 amended: the store never rejects or alters a prompt; Add appends
exactly one row whose prompt is the caller string verbatim, the empty
string included. -/
theorem c9_prompt_stored_verbatim (p : String) (resp : Option CommandResponse)
    (usage : Option LLMUsage) (errMsg : String) (pid : Option Int) (now : Nat) (t : Table) :
    (addHistoryEntry p resp usage errMsg pid now t).2.rows =
      t.rows ++
        [{ id := t.nextId, timestamp := now, prompt := p,
           command := match resp with | some r => r.command | none => "",
           details := match resp with | some r => r.details | none => "",
           show_details := match resp with | some r => r.show_details | none => false,
           error_message := errMsg,
           model := match usage with | some u => u.model | none => "",
           input_tokens := match usage with | some u => u.inputTokens | none => 0,
           output_tokens := match usage with | some u => u.outputTokens | none => 0,
           favorite := false, parent_id := pid }] := rfl

/-! ## Claim C10 -/

/-- C10: the LLMUsage built by GenerateCommand and
GenerateCommandContinuation takes its InputTokens field from the output
token count of the API message and its OutputTokens field from the input
token count (the two counts are exchanged), and the history write persists
this same value into the input_tokens and output_tokens columns. -/
theorem c10_token_counts_swapped (modelName : String) (msg : ApiMessage) (prompt : String)
    (errMsg : String) (pid : Option Int) (now : Nat) (t : Table) :
    (usageFromMessage modelName msg.usage).inputTokens = msg.usage.outputTokens ∧
    (usageFromMessage modelName msg.usage).outputTokens = msg.usage.inputTokens ∧
    (generateCommand modelName (.ok msg)).2.1 = some (usageFromMessage modelName msg.usage) ∧
    (generateCommandContinuation modelName (.ok msg)).2.1 =
      some (usageFromMessage modelName msg.usage) ∧
    (addHistoryEntry prompt none (some (usageFromMessage modelName msg.usage))
        errMsg pid now t).2.rows.getLast? =
      some { id := t.nextId, timestamp := now, prompt := prompt, command := "",
             details := "", show_details := false, error_message := errMsg,
             model := modelName, input_tokens := msg.usage.outputTokens,
             output_tokens := msg.usage.inputTokens, favorite := false,
             parent_id := pid } := by
  refine ⟨rfl, rfl, ?_, ?_, ?_⟩
  · cases hp : parseAndValidateResponse (concatTextBlocks msg.content) <;>
      simp [generateCommand, hp]
  · cases hp : parseAndValidateResponse (concatTextBlocks msg.content) <;>
      simp [generateCommandContinuation, hp]
  · show ((addHistoryEntry prompt none (some (usageFromMessage modelName msg.usage))
        errMsg pid now t).2.rows).getLast? = _
    rw [addHistoryEntry_rows]
    rw [List.getLast?_concat]
    rfl

/-! ## Claim C5 -/

/-- C5: Add followed by Get on the returned id yields an entry whose
prompt, command, details, show_details, error_message, model, input_tokens
and output_tokens equal the inputs exactly, with the nil response and nil
usage defaults, and with the store-assigned id and timestamp present. -/
theorem c5_add_get_roundtrip (prompt : String) (resp : Option CommandResponse)
    (usage : Option LLMUsage) (errMsg : String) (pid : Option Int) (now : Nat) (t : Table)
    (hwf : TableWF t) :
    getHistoryEntry (addHistoryEntry prompt resp usage errMsg pid now t).1
        (addHistoryEntry prompt resp usage errMsg pid now t).2 =
      .ok { id := (addHistoryEntry prompt resp usage errMsg pid now t).1, timestamp := now,
            prompt := prompt,
            command := match resp with | some r => r.command | none => "",
            details := match resp with | some r => r.details | none => "",
            show_details := match resp with | some r => r.show_details | none => false,
            error_message := errMsg,
            model := match usage with | some u => u.model | none => "",
            input_tokens := match usage with | some u => u.inputTokens | none => 0,
            output_tokens := match usage with | some u => u.outputTokens | none => 0,
            favorite := false, parent_id := pid } := by
  unfold getHistoryEntry
  rw [addHistoryEntry_rows]
  rw [find?_append_of_none]
  · rw [List.find?_cons_of_pos]
    · rfl
    · exact beq_self_eq_true t.nextId
  · intro x hx
    have hlt := hwf x hx
    simp only [Bool.not_eq_true, beq_eq_false_iff_ne, ne_eq]
    exact fun he => absurd he (Int.ne_of_lt hlt)

/-- Witness for C5 at a concrete input: adding to the empty store and
reading the entry back. -/
theorem c5_witness :
    TableWF { rows := [], nextId := 1 } ∧
    getHistoryEntry
        (addHistoryEntry "list files" (some { command := "ls", details := "dir", show_details := true })
          (some { model := "claude", inputTokens := 3, outputTokens := 4 }) "" none 9
          { rows := [], nextId := 1 }).1
        (addHistoryEntry "list files" (some { command := "ls", details := "dir", show_details := true })
          (some { model := "claude", inputTokens := 3, outputTokens := 4 }) "" none 9
          { rows := [], nextId := 1 }).2 =
      .ok { id := (addHistoryEntry "list files" (some { command := "ls", details := "dir", show_details := true })
              (some { model := "claude", inputTokens := 3, outputTokens := 4 }) "" none 9
              { rows := [], nextId := 1 }).1,
            timestamp := 9, prompt := "list files", command := "ls", details := "dir",
            show_details := true, error_message := "", model := "claude", input_tokens := 3,
            output_tokens := 4, favorite := false, parent_id := none } :=
  ⟨fun r hr => absurd hr (List.not_mem_nil r),
   c5_add_get_roundtrip "list files" (some { command := "ls", details := "dir", show_details := true })
     (some { model := "claude", inputTokens := 3, outputTokens := 4 }) "" none 9
     { rows := [], nextId := 1 } (fun r hr => absurd hr (List.not_mem_nil r))⟩

/-! ## Claim C8 -/

/-- C8: deleting an id that is present succeeds, a Get of that id
afterwards fails with the NotFound error, and a child entry whose parent_id
references the deleted id stays present and unchanged with its parent_id
now dangling; no other row is removed. -/
theorem c8_delete_then_get (id : Int) (t : Table) (e child : HistoryEntry)
    (he : e ∈ t.rows) (hid : e.id = id)
    (hchild : child ∈ t.rows) (hcp : child.parent_id = some id) (hcne : child.id ≠ id) :
    ∃ t2 : Table,
      deleteHistoryEntry id t = .ok t2 ∧
      getHistoryEntry id t2 = .error ("no history entry found with ID " ++ toString id) ∧
      child ∈ t2.rows ∧
      child.parent_id = some id ∧
      (∀ r ∈ t2.rows, r.id ≠ id) ∧
      t2.rows = t.rows.filter (fun r => !(r.id == id)) := by
  have hany : t.rows.any (fun r => r.id == id) = true :=
    List.any_eq_true.mpr ⟨e, he, by simp [hid]⟩
  refine ⟨{ rows := t.rows.filter (fun r => !(r.id == id)), nextId := t.nextId },
    ?_, ?_, ?_, hcp, ?_, rfl⟩
  · unfold deleteHistoryEntry
    rw [if_pos hany]
  · unfold getHistoryEntry
    have hnone : (t.rows.filter (fun r => !(r.id == id))).find? (fun r => r.id == id) = none := by
      rw [List.find?_eq_none]
      intro x hx
      have := (List.mem_filter.mp hx).2
      simpa using this
    rw [hnone]
  · exact List.mem_filter.mpr ⟨hchild, by simp [hcne]⟩
  · intro r hr
    have := (List.mem_filter.mp hr).2
    simpa using this

/-- Witness for C8 at a concrete input: a two-row table where the second
row continues from the first, deleting the first. -/
theorem c8_witness :
    ∃ t2 : Table,
      deleteHistoryEntry 1
          { rows := [{ id := 1, timestamp := 5, prompt := "a", command := "ls", details := "",
                       show_details := false, error_message := "", model := "", input_tokens := 0,
                       output_tokens := 0, favorite := false, parent_id := none },
                     { id := 2, timestamp := 6, prompt := "b", command := "pwd", details := "",
                       show_details := false, error_message := "", model := "", input_tokens := 0,
                       output_tokens := 0, favorite := false, parent_id := some 1 }],
            nextId := 3 } = .ok t2 ∧
      getHistoryEntry 1 t2 = .error ("no history entry found with ID " ++ toString (1 : Int)) ∧
      ({ id := 2, timestamp := 6, prompt := "b", command := "pwd", details := "",
         show_details := false, error_message := "", model := "", input_tokens := 0,
         output_tokens := 0, favorite := false, parent_id := some 1 } : HistoryEntry) ∈ t2.rows ∧
      ({ id := 2, timestamp := 6, prompt := "b", command := "pwd", details := "",
         show_details := false, error_message := "", model := "", input_tokens := 0,
         output_tokens := 0, favorite := false, parent_id := some 1 } : HistoryEntry).parent_id =
        some 1 ∧
      (∀ r ∈ t2.rows, r.id ≠ 1) ∧
      t2.rows =
        ({ rows := [{ id := 1, timestamp := 5, prompt := "a", command := "ls", details := "",
                      show_details := false, error_message := "", model := "", input_tokens := 0,
                      output_tokens := 0, favorite := false, parent_id := none },
                    { id := 2, timestamp := 6, prompt := "b", command := "pwd", details := "",
                      show_details := false, error_message := "", model := "", input_tokens := 0,
                      output_tokens := 0, favorite := false, parent_id := some 1 }],
           nextId := 3 } : Table).rows.filter (fun r => !(r.id == 1)) :=
  c8_delete_then_get 1 _
    { id := 1, timestamp := 5, prompt := "a", command := "ls", details := "",
      show_details := false, error_message := "", model := "", input_tokens := 0,
      output_tokens := 0, favorite := false, parent_id := none }
    { id := 2, timestamp := 6, prompt := "b", command := "pwd", details := "",
      show_details := false, error_message := "", model := "", input_tokens := 0,
      output_tokens := 0, favorite := false, parent_id := some 1 }
    (by simp) rfl (by simp) rfl (by decide)

/-! ## Claim C6 -/

/-- C6 counterexample: for the term consisting of one percent sign,
SearchHistory backslash-escapes it, but the LIKE in the statement carries no
ESCAPE clause, so the backslash is an ordinary pattern character.  Search
then finds nothing on a table whose only row has prompt a, while List with
the same term matches that row (its pattern is all wildcards). -/
theorem c6_counterexample :
    searchHistory "%" (-1)
        { rows := [{ id := 1, timestamp := 5, prompt := "a", command := "", details := "",
                     show_details := false, error_message := "", model := "", input_tokens := 0,
                     output_tokens := 0, favorite := false, parent_id := none }],
          nextId := 2 } ≠
      .ok (getHistoryEntries (-1) 0 false "%"
        { rows := [{ id := 1, timestamp := 5, prompt := "a", command := "", details := "",
                     show_details := false, error_message := "", model := "", input_tokens := 0,
                     output_tokens := 0, favorite := false, parent_id := none }],
          nextId := 2 }) := by decide

/-- C6 amended: for every non-empty term that contains no percent sign,
Search returns exactly the entries of List with that term as searchTerm, no
favorites filter and offset zero; the empty term makes Search fail with the
InvalidArgument error while List with an empty searchTerm applies no
filter. -/
theorem c6_search_list_equivalence :
    (∀ (term : String) (limit : Int) (t : Table), term ≠ "" → '%' ∉ term.toList →
        searchHistory term limit t = .ok (getHistoryEntries limit 0 false term t)) ∧
    (∀ (limit : Int) (t : Table),
        searchHistory "" limit t = .error "search query cannot be empty" ∧
        getHistoryEntries limit 0 false "" t = applyLimit limit (orderByTimestampDesc t.rows)) := by
  constructor
  · intro term limit t hterm hpct
    unfold searchHistory getHistoryEntries applyLimitOffset
    rw [if_neg hterm, escapePercent_id hpct, Int.toNat_zero, List.drop_zero]
    have hfilter : t.rows.filter (listMatches false term) =
        t.rows.filter (fun r => likeMatch ('%' :: term.toList ++ ['%']) r.prompt.toList ||
          likeMatch ('%' :: term.toList ++ ['%']) r.command.toList) := by
      apply List.filter_congr
      intro x hx
      unfold listMatches likePattern
      rw [if_neg hterm]
      simp
    rw [hfilter]
  · intro limit t
    refine ⟨by unfold searchHistory; rw [if_pos rfl], ?_⟩
    unfold getHistoryEntries applyLimitOffset
    rw [Int.toNat_zero, List.drop_zero]
    have hall : t.rows.filter (listMatches false "") = t.rows := by
      apply List.filter_eq_self.mpr
      intro a ha
      unfold listMatches
      simp
    rw [hall]

/-- Witness for C6 at a concrete input: a percent-free term on a one-row
table. -/
theorem c6_witness :
    ("a" : String) ≠ "" ∧ '%' ∉ "a".toList ∧
    searchHistory "a" (-1)
        { rows := [{ id := 1, timestamp := 5, prompt := "a", command := "", details := "",
                     show_details := false, error_message := "", model := "", input_tokens := 0,
                     output_tokens := 0, favorite := false, parent_id := none }],
          nextId := 2 } =
      .ok (getHistoryEntries (-1) 0 false "a"
        { rows := [{ id := 1, timestamp := 5, prompt := "a", command := "", details := "",
                     show_details := false, error_message := "", model := "", input_tokens := 0,
                     output_tokens := 0, favorite := false, parent_id := none }],
          nextId := 2 }) :=
  ⟨by decide, by decide,
   c6_search_list_equivalence.1 "a" (-1)
     { rows := [{ id := 1, timestamp := 5, prompt := "a", command := "", details := "",
                  show_details := false, error_message := "", model := "", input_tokens := 0,
                  output_tokens := 0, favorite := false, parent_id := none }],
       nextId := 2 } (by decide) (by decide)⟩

/-! ## Claim C7 -/

/-- C7 counterexample: SQLite LIKE is ASCII-case-insensitive, so a search
for pdf returns an entry whose prompt is PDF FILES although neither its
prompt nor its command contains pdf as a case-sensitive substring. -/
theorem c7_counterexample :
    ∃ e : HistoryEntry,
      getHistoryEntries (-1) 0 false "pdf" { rows := [e], nextId := 2 } = [e] ∧
      substrCS "pdf".toList e.prompt.toList = false ∧
      substrCS "pdf".toList e.command.toList = false :=
  ⟨{ id := 1, timestamp := 5, prompt := "PDF FILES", command := "", details := "",
     show_details := false, error_message := "", model := "", input_tokens := 0,
     output_tokens := 0, favorite := false, parent_id := none },
   by decide, by decide, by decide⟩

/-- C7 amended: for a non-empty term free of the LIKE wildcards (percent
and underscore), with offset zero and a limit that does not truncate, List
returns exactly the entries whose prompt or command contains the term as an
ASCII-case-insensitive substring, in timestamp-descending order, and the
result is the empty list, not an error, when nothing matches. -/
theorem c7_list_search_semantics (term : String) (limit : Int) (t : Table)
    (hterm : term ≠ "")
    (hw : ∀ c ∈ term.toList, c ≠ '%' ∧ c ≠ '_')
    (hlim : limit < 0 ∨
      (t.rows.filter (fun r => substrCI term.toList r.prompt.toList ||
        substrCI term.toList r.command.toList)).length ≤ limit.toNat) :
    (getHistoryEntries limit 0 false term t).Perm
        (t.rows.filter (fun r => substrCI term.toList r.prompt.toList ||
          substrCI term.toList r.command.toList)) ∧
    (getHistoryEntries limit 0 false term t).Pairwise tsGE ∧
    ((∀ r ∈ t.rows, substrCI term.toList r.prompt.toList = false ∧
        substrCI term.toList r.command.toList = false) →
      getHistoryEntries limit 0 false term t = []) := by
  have hfilter : t.rows.filter (listMatches false term) =
      t.rows.filter (fun r => substrCI term.toList r.prompt.toList ||
        substrCI term.toList r.command.toList) := by
    apply List.filter_congr
    intro x hx
    unfold listMatches
    rw [if_neg hterm]
    rw [likeMatch_likePattern hw, likeMatch_likePattern hw]
    simp
  have hunfold : getHistoryEntries limit 0 false term t =
      applyLimit limit (orderByTimestampDesc (t.rows.filter
        (fun r => substrCI term.toList r.prompt.toList ||
          substrCI term.toList r.command.toList))) := by
    unfold getHistoryEntries applyLimitOffset
    rw [hfilter, Int.toNat_zero, List.drop_zero]
  rw [hunfold]
  have hsorted : (orderByTimestampDesc (t.rows.filter
      (fun r => substrCI term.toList r.prompt.toList ||
        substrCI term.toList r.command.toList))).Pairwise tsGE :=
    List.sorted_insertionSort tsGE _
  have hperm : (orderByTimestampDesc (t.rows.filter
      (fun r => substrCI term.toList r.prompt.toList ||
        substrCI term.toList r.command.toList))).Perm
      (t.rows.filter (fun r => substrCI term.toList r.prompt.toList ||
        substrCI term.toList r.command.toList)) :=
    List.perm_insertionSort tsGE _
  refine ⟨?_, ?_, ?_⟩
  · unfold applyLimit
    by_cases hneg : limit < 0
    · rw [if_pos hneg]
      exact hperm
    · rw [if_neg hneg]
      rcases hlim with hneg2 | hlen
      · exact absurd hneg2 hneg
      · rw [List.take_of_length_le]
        · exact hperm
        · rw [hperm.length_eq]
          exact hlen
  · unfold applyLimit
    by_cases hneg : limit < 0
    · rw [if_pos hneg]
      exact hsorted
    · rw [if_neg hneg]
      exact hsorted.sublist (List.take_sublist _ _)
  · intro hnone
    have hempty : t.rows.filter (fun r => substrCI term.toList r.prompt.toList ||
        substrCI term.toList r.command.toList) = [] := by
      apply List.filter_eq_nil_iff.mpr
      intro x hx
      simp only [Bool.or_eq_true, not_or, Bool.not_eq_true]
      exact ⟨(hnone x hx).1, (hnone x hx).2⟩
    rw [hempty]
    unfold orderByTimestampDesc applyLimit
    simp

/-- Witness for C7 at a concrete input: the scenario from the
specification, searching pdf over a two-row table. -/
theorem c7_witness :
    ("pdf" : String) ≠ "" ∧ (∀ c ∈ "pdf".toList, c ≠ '%' ∧ c ≠ '_') ∧
    ((getHistoryEntries (-1) 0 false "pdf"
        { rows := [{ id := 1, timestamp := 5, prompt := "find pdf files", command := "", details := "",
                     show_details := false, error_message := "", model := "", input_tokens := 0,
                     output_tokens := 0, favorite := false, parent_id := none },
                   { id := 2, timestamp := 6, prompt := "list logs", command := "", details := "",
                     show_details := false, error_message := "", model := "", input_tokens := 0,
                     output_tokens := 0, favorite := false, parent_id := none }],
          nextId := 3 }).Perm
        (({ rows := [{ id := 1, timestamp := 5, prompt := "find pdf files", command := "", details := "",
                       show_details := false, error_message := "", model := "", input_tokens := 0,
                       output_tokens := 0, favorite := false, parent_id := none },
                     { id := 2, timestamp := 6, prompt := "list logs", command := "", details := "",
                       show_details := false, error_message := "", model := "", input_tokens := 0,
                       output_tokens := 0, favorite := false, parent_id := none }],
            nextId := 3 } : Table).rows.filter
          (fun r => substrCI "pdf".toList r.prompt.toList ||
            substrCI "pdf".toList r.command.toList)) ∧
      (getHistoryEntries (-1) 0 false "pdf"
        { rows := [{ id := 1, timestamp := 5, prompt := "find pdf files", command := "", details := "",
                     show_details := false, error_message := "", model := "", input_tokens := 0,
                     output_tokens := 0, favorite := false, parent_id := none },
                   { id := 2, timestamp := 6, prompt := "list logs", command := "", details := "",
                     show_details := false, error_message := "", model := "", input_tokens := 0,
                     output_tokens := 0, favorite := false, parent_id := none }],
          nextId := 3 }).Pairwise tsGE ∧
      ((∀ r ∈ ({ rows := [{ id := 1, timestamp := 5, prompt := "find pdf files", command := "", details := "",
                            show_details := false, error_message := "", model := "", input_tokens := 0,
                            output_tokens := 0, favorite := false, parent_id := none },
                          { id := 2, timestamp := 6, prompt := "list logs", command := "", details := "",
                            show_details := false, error_message := "", model := "", input_tokens := 0,
                            output_tokens := 0, favorite := false, parent_id := none }],
                 nextId := 3 } : Table).rows,
          substrCI "pdf".toList r.prompt.toList = false ∧
            substrCI "pdf".toList r.command.toList = false) →
        getHistoryEntries (-1) 0 false "pdf"
          { rows := [{ id := 1, timestamp := 5, prompt := "find pdf files", command := "", details := "",
                       show_details := false, error_message := "", model := "", input_tokens := 0,
                       output_tokens := 0, favorite := false, parent_id := none },
                     { id := 2, timestamp := 6, prompt := "list logs", command := "", details := "",
                       show_details := false, error_message := "", model := "", input_tokens := 0,
                       output_tokens := 0, favorite := false, parent_id := none }],
            nextId := 3 } = [])) :=
  ⟨by decide, by decide,
   c7_list_search_semantics "pdf" (-1)
     { rows := [{ id := 1, timestamp := 5, prompt := "find pdf files", command := "", details := "",
                  show_details := false, error_message := "", model := "", input_tokens := 0,
                  output_tokens := 0, favorite := false, parent_id := none },
                { id := 2, timestamp := 6, prompt := "list logs", command := "", details := "",
                  show_details := false, error_message := "", model := "", input_tokens := 0,
                  output_tokens := 0, favorite := false, parent_id := none }],
       nextId := 3 } (by decide) (by decide) (Or.inl (by decide))⟩

/-! ## Claim C4 -/

/-- C4: whenever a generation attempt fails (the API call or the response
parsing), the prompt subcommand with an available database handle performs
exactly one history write carrying the prompt, the usage the generation
returned (present whenever the API call itself succeeded), and the error
text, and that write happens before the failure is surfaced; whether the
write fails or not does not change the surfaced error. -/
theorem c4_failure_logged (prompt : String) (parentID : Option Int) (modelName : String)
    (api : Except String ApiMessage)
    (gen : Option CommandResponse × Option LLMUsage × Option String)
    (f f2 : Bool) (e : String)
    (hgen : gen = generateCommand modelName api ∨ gen = generateCommandContinuation modelName api)
    (hfail : gen.2.2 = some e) :
    promptRun prompt true parentID gen f =
      [RunEvent.addHistory
        { prompt := prompt, response := gen.1, usage := gen.2.1, errorMsg := e,
          parentID := parentID } f,
       RunEvent.surfaceError e] ∧
    gen.1 = none ∧
    surfacedErrors (promptRun prompt true parentID gen f) =
      surfacedErrors (promptRun prompt true parentID gen f2) ∧
    (∀ msg : ApiMessage, api = .ok msg → gen.2.1.isSome = true) := by
  have hrun : ∀ f3 : Bool,
      promptRun prompt true parentID gen f3 =
        [RunEvent.addHistory
          { prompt := prompt, response := gen.1, usage := gen.2.1, errorMsg := e,
            parentID := parentID } f3,
         RunEvent.surfaceError e] := by
    intro f3
    unfold promptRun
    rw [hfail]
    rfl
  refine ⟨hrun f, ?_, ?_, ?_⟩
  · rcases hgen with h | h <;> rw [h] <;> rw [h] at hfail
    · cases api with
      | error ea => rfl
      | ok msg =>
        cases hp : parseAndValidateResponse (concatTextBlocks msg.content) with
        | error pe => simp [generateCommand, hp]
        | ok rr =>
          rw [show (generateCommand modelName (.ok msg)).2.2 = none by
            simp [generateCommand, hp]] at hfail
          exact absurd hfail (by simp)
    · cases api with
      | error ea => rfl
      | ok msg =>
        cases hp : parseAndValidateResponse (concatTextBlocks msg.content) with
        | error pe => simp [generateCommandContinuation, hp]
        | ok rr =>
          rw [show (generateCommandContinuation modelName (.ok msg)).2.2 = none by
            simp [generateCommandContinuation, hp]] at hfail
          exact absurd hfail (by simp)
  · rw [hrun f, hrun f2]
    rfl
  · intro msg hapi
    subst hapi
    rcases hgen with h | h <;> rw [h] <;>
      cases hp : parseAndValidateResponse (concatTextBlocks msg.content) <;>
        simp [generateCommand, generateCommandContinuation, hp]

/-- Witness for C4 at a concrete input: a failing API call. -/
theorem c4_witness :
    ((generateCommand "m" (.error "boom") = generateCommand "m" (.error "boom") ∨
        generateCommand "m" (.error "boom") = generateCommandContinuation "m" (.error "boom")) ∧
      (generateCommand "m" (.error "boom")).2.2 = some "error generating command: boom") ∧
    (promptRun "p" true none (generateCommand "m" (.error "boom")) true =
      [RunEvent.addHistory
        { prompt := "p", response := (generateCommand "m" (.error "boom")).1,
          usage := (generateCommand "m" (.error "boom")).2.1,
          errorMsg := "error generating command: boom", parentID := none } true,
       RunEvent.surfaceError "error generating command: boom"] ∧
     (generateCommand "m" (.error "boom")).1 = none ∧
     surfacedErrors (promptRun "p" true none (generateCommand "m" (.error "boom")) true) =
       surfacedErrors (promptRun "p" true none (generateCommand "m" (.error "boom")) false) ∧
     (∀ msg : ApiMessage, (.error "boom" : Except String ApiMessage) = .ok msg →
       (generateCommand "m" (.error "boom")).2.1.isSome = true)) :=
  ⟨⟨Or.inl rfl, rfl⟩,
   c4_failure_logged "p" none "m" (.error "boom") (generateCommand "m" (.error "boom"))
     true false "error generating command: boom" (Or.inl rfl) rfl⟩

/-! ## Claim C3 -/

/-- C3 counterexample: the surrounding text is not arbitrary.  A single
opening curly bracket before the payload shifts the extracted span, which
is then not valid JSON, so the parser fails although a valid payload with a
non-empty command is embedded in the text. -/
theorem c3_counterexample :
    parseAndValidateResponse
        ('{' :: ('{' :: "\"command\":\"ls\"".toList ++ ['}'])) =
      .error "error unmarshaling JSON" := by decide

/-- C3 amended: for every payload that Unmarshal decodes to a
CommandResponse with fields c, d, b and a non-empty c, and every
surrounding text whose part before the payload contains no opening curly
bracket and whose part after it contains no closing one (so that the first
opening bracket and the last closing bracket of the whole text delimit the
payload), the parser succeeds and returns exactly that CommandResponse,
with the absent optional keys already defaulted by the decode. -/
theorem c3_embedded_payload (pre j suf : List Char) (c d : String) (b : Bool)
    (hpre : '{' ∉ pre) (hsuf : '}' ∉ suf)
    (hj1 : j.head? = some '{') (hj2 : j.getLast? = some '}')
    (hparse : jsonUnmarshalCR j = .ok { command := c, details := d, show_details := b })
    (hc : c ≠ "") :
    parseAndValidateResponse (pre ++ j ++ suf) =
      .ok { command := c, details := d, show_details := b } := by
  have h1 := @firstIdx_concat '{' pre j suf hpre hj1
  have h2 := @lastIdx_concat '}' pre j suf hsuf hj2
  have hlen := two_le_length_span hj1 hj2
  unfold parseAndValidateResponse
  rw [h1, h2]
  dsimp only
  have hgt : ¬(pre.length + (j.length - 1) ≤ pre.length) := by omega
  rw [if_neg hgt]
  have harith : pre.length + (j.length - 1) + 1 - pre.length = j.length := by omega
  rw [harith]
  have hslice : ((pre ++ j ++ suf).drop pre.length).take j.length = j := by
    rw [List.append_assoc, List.drop_left, List.take_left]
  rw [hslice, hparse]
  dsimp only
  rw [if_neg hc]

/-- Witness for C3 at a concrete input: a payload embedded in prose. -/
theorem c3_witness :
    '{' ∉ "Here: ".toList ∧ '}' ∉ " done".toList ∧
    ('{' :: "\"command\":\"ls\"".toList ++ ['}']).head? = some '{' ∧
    ('{' :: "\"command\":\"ls\"".toList ++ ['}']).getLast? = some '}' ∧
    jsonUnmarshalCR ('{' :: "\"command\":\"ls\"".toList ++ ['}']) =
      .ok { command := "ls", details := "", show_details := false } ∧
    ("ls" : String) ≠ "" ∧
    parseAndValidateResponse
        ("Here: ".toList ++ ('{' :: "\"command\":\"ls\"".toList ++ ['}']) ++ " done".toList) =
      .ok { command := "ls", details := "", show_details := false } :=
  ⟨by decide, by decide, by decide, by decide, by decide, by decide,
   c3_embedded_payload "Here: ".toList ('{' :: "\"command\":\"ls\"".toList ++ ['}'])
     " done".toList "ls" "" false (by decide) (by decide) (by decide) (by decide)
     (by decide) (by decide)⟩

/-! ## Claim C2 -/

/-- C2 counterexample: the code compares the decoded command against the
empty string without trimming, so a payload whose command is a single
space is accepted, not rejected. -/
theorem c2_counterexample :
    parseAndValidateResponse ('{' :: "\"command\": \" \"".toList ++ ['}']) =
      .ok { command := " ", details := "", show_details := false } := by decide

/-- C2 amended: the parser fails, returning no CommandResponse at all,
exactly when the text has no opening curly bracket strictly before a
closing one, or the span from the first opening bracket to the last
closing one is rejected by the Unmarshal into CommandResponse (not valid
JSON, or a wrongly typed field), or the decoded command is exactly the
empty string.  There is no whitespace trimming: a command of only
whitespace is accepted. -/
theorem c2_parse_failure_characterization (t : List Char) :
    (∃ msg, parseAndValidateResponse t = .error msg) ↔
      (¬ HasBracePair t ∨
       (jsonUnmarshalCR (braceSpan t)).isOk = false ∨
       ∃ r : CommandResponse, jsonUnmarshalCR (braceSpan t) = .ok r ∧ r.command = "") := by
  unfold parseAndValidateResponse braceSpan
  cases h1 : firstIdx '{' t with
  | none =>
    constructor
    · intro _
      left
      rintro ⟨i, jj, hij, hi, hj⟩
      exact firstIdx_none h1 i hi
    · intro _
      exact ⟨"could not find valid JSON in response", rfl⟩
  | some s =>
    cases h2 : lastIdx '}' t with
    | none =>
      constructor
      · intro _
        left
        rintro ⟨i, jj, hij, hi, hj⟩
        exact lastIdx_none h2 jj hj
      · intro _
        exact ⟨"could not find valid JSON in response", rfl⟩
    | some e2 =>
      dsimp only
      by_cases hle : e2 ≤ s
      · rw [if_pos hle]
        constructor
        · intro _
          left
          rintro ⟨i, jj, hij, hi, hj⟩
          have hs := (firstIdx_found h1).2 i hi
          have he := (lastIdx_found h2).2 jj hj
          omega
        · intro _
          exact ⟨"could not find valid JSON in response", rfl⟩
      · rw [if_neg hle, if_neg hle]
        have hpair : HasBracePair t :=
          ⟨s, e2, by omega, (firstIdx_found h1).1, (lastIdx_found h2).1⟩
        cases hu : jsonUnmarshalCR (List.take (e2 + 1 - s) (List.drop s t)) with
        | error u =>
          constructor
          · intro _
            exact Or.inr (Or.inl rfl)
          · intro _
            exact ⟨"error unmarshaling JSON", rfl⟩
        | ok r =>
          by_cases hcmd : r.command = ""
          · constructor
            · intro _
              exact Or.inr (Or.inr ⟨r, rfl, hcmd⟩)
            · intro _
              refine ⟨"command is empty in response", ?_⟩
              dsimp only
              rw [if_pos hcmd]
          · constructor
            · rintro ⟨msg, hmsg⟩
              dsimp only at hmsg
              rw [if_neg hcmd] at hmsg
              exact Except.noConfusion hmsg
            · rintro (hnp | hisok | ⟨r2, hr2, hc2⟩)
              · exact absurd hpair hnp
              · exact Bool.noConfusion (show true = false from hisok)
              · have hr : r = r2 := Except.ok.inj hr2
                exact absurd (hr ▸ hc2) hcmd
